import Mathlib

/-!
Shallow embedding of the fastapi-ddd repository (Python/FastAPI/SQLModel)
for checking its natural-language specification.

Conventions of the embedding:
- UUID primary keys are modelled as Nat; a database state carries a nextId
  counter and freshly created rows receive consecutive ids starting at nextId.
- datetime values are modelled as Nat timestamps.
- A SQL table is a list of rows in insertion order; select(...).where(...)
  becomes List.filter, session.get by primary key becomes List.find?.
- Python exceptions are modelled with an error type SvcError; a raising
  coroutine becomes a function into Except SvcError.
- Python set(xs) of ids is modelled as List.dedup of the id list; membership
  tests and set differences are performed on those lists, which matches the
  set semantics used by the source (only membership matters there).
-/

/-- Errors that the embedded service layer can produce.  Constructors mirror
the distinct Python-level outcomes of the source:
httpNotFound models raise HTTPException(404, detail) with a plain detail
string; notFoundMissing models raise HTTPException(404, detail) where the
detail string names the missing ids (services.py builds the detail from the
set missing_ids); conflict models raise HTTPException(409, detail);
unauthorized models raise HTTPException(401, detail);
typeError models a Python TypeError (for example calling a constructor with
an unexpected keyword argument); attributeError models a Python
AttributeError (accessing an attribute that does not exist);
multipleResultsFound models sqlalchemy MultipleResultsFound raised by
one_or_none when a query matches more than one row. -/
inductive SvcError where
  | httpNotFound (detail : String)
  | notFoundMissing (missingIds : List Nat)
  | conflict (detail : String)
  | unauthorized (detail : String)
  | typeError (msg : String)
  | attributeError (msg : String)
  | multipleResultsFound
deriving Repr, DecidableEq

deriving instance DecidableEq for Except

namespace Authz

/-- Row of the roles table (domains/authorization/models.py, class Role).
Timestamps are omitted from this domain because no authorization claim reads
them; ids, names and the is_active flag are the fields the code consults. -/
structure Role where
  id : Nat
  name : String
  is_active : Bool
deriving Repr, DecidableEq

/-- Row of the permissions table (models.py, class Permission). -/
structure Permission where
  id : Nat
  resource : String
  action : String
deriving Repr, DecidableEq

/-- Row of the role_permissions join table (models.py, class RolePermission). -/
structure RolePermission where
  id : Nat
  role_id : Nat
  permission_id : Nat
deriving Repr, DecidableEq

/-- Row of the user_roles join table (models.py, class UserRole).  The model
declares exactly the columns user_id and role_id besides the base columns;
in particular it has no attribute named user. -/
structure UserRole where
  id : Nat
  user_id : Nat
  role_id : Nat
deriving Repr, DecidableEq

/-- Database state of the authorization domain: the four tables plus the
fresh-id counter used when new rows are inserted. -/
structure DB where
  roles : List Role
  permissions : List Permission
  rolePermissions : List RolePermission
  userRoles : List UserRole
  nextId : Nat
deriving Repr, DecidableEq

/-- RoleRepository.get_by_ids: select(Role).where(Role.id.in_(role_ids)). -/
def roleGetByIds (db : DB) (role_ids : List Nat) : List Role :=
  db.roles.filter (fun r => role_ids.contains r.id)

/-- PermissionRepository.get_by_ids:
select(Permission).where(Permission.id.in_(permission_ids)). -/
def permissionGetByIds (db : DB) (permission_ids : List Nat) : List Permission :=
  db.permissions.filter (fun p => permission_ids.contains p.id)

/-- PermissionRepository.get_permissions_by_role: select(Permission) joined
with RolePermission on permission_id, filtered to the given role.  The join
is embedded by walking the matching join rows and looking each permission up
by primary key. -/
def get_permissions_by_role (db : DB) (role_id : Nat) : List Permission :=
  (db.rolePermissions.filter (fun rp => rp.role_id == role_id)).filterMap
    (fun rp => db.permissions.find? (fun p => p.id == rp.permission_id))

/-- RolePermissionRepository.get_by_role:
select(RolePermission).where(RolePermission.role_id == role_id). -/
def get_by_role (db : DB) (role_id : Nat) : List RolePermission :=
  db.rolePermissions.filter (fun rp => rp.role_id == role_id)

/-- RolePermissionRepository.delete_by_ids:
delete(RolePermission).where(RolePermission.id.in_(assignment_ids)). -/
def rolePermissionDeleteByIds (db : DB) (assignment_ids : List Nat) : DB :=
  { db with rolePermissions :=
      db.rolePermissions.filter (fun rp => !assignment_ids.contains rp.id) }

/-- Rows inserted by RolePermissionRepository.bulk_create: one RolePermission
per permission id, with consecutive fresh primary keys starting at start. -/
def mkRolePermissionRows (start role_id : Nat) : List Nat → List RolePermission
  | [] => []
  | pid :: rest => ⟨start, role_id, pid⟩ :: mkRolePermissionRows (start + 1) role_id rest

/-- RolePermissionRepository.bulk_create: insert one RolePermission row per
permission id, each receiving a fresh primary key from the counter. -/
def rolePermissionBulkCreate (db : DB) (role_id : Nat) (permission_ids : List Nat) : DB :=
  { db with
    rolePermissions := db.rolePermissions ++
      mkRolePermissionRows db.nextId role_id permission_ids,
    nextId := db.nextId + permission_ids.length }

/-- BaseService.get as inherited by RoleService.  The source looks the record
up by primary key and, when it is absent, executes
raise HTTPException(status_code=404, default=...): the HTTPException
constructor has no keyword argument named default, so building the exception
itself raises TypeError before any HTTPException exists.  The absent case is
therefore a TypeError, not an HTTP 404. -/
def roleServiceGet (db : DB) (id : Nat) : Except SvcError Role :=
  match db.roles.find? (fun r => r.id == id) with
  | some r => .ok r
  | none => .error (.typeError "HTTPException got an unexpected keyword argument: default")

/-- Result of RoleService.sync_permissions: the updated database, the role
and permission list of the returned RoleWithPermissionsReadSchema, and the
number of join rows inserted and deleted (the write counts of bulk_create
and delete_by_ids). -/
structure SyncOutcome where
  db : DB
  role : Role
  permissions : List Permission
  addedCount : Nat
  removedCount : Nat
deriving Repr, DecidableEq

/-- RoleService.sync_permissions (services.py).  Steps in source order:
fetch the role through BaseService.get; build the desired id set; when the
desired set is nonempty, validate every desired id against the permissions
table and fail with HTTP 404 naming the missing ids when any is absent;
read the existing assignments of the role; compute to_add and to_remove as
set differences; delete the assignments whose permission id is in to_remove;
bulk-insert rows for to_add; finally rebuild the membership through
get_permissions_by_role and return it with the role. -/
def sync_permissions (db : DB) (role_id : Nat) (permission_ids : List Nat) :
    Except SvcError SyncOutcome :=
  match roleServiceGet db role_id with
  | .error e => .error e
  | .ok role =>
    let desired := permission_ids.dedup
    let found := permissionGetByIds db desired
    if !desired.isEmpty && found.length != desired.length then
      .error (.notFoundMissing
        (desired.filter (fun pid => !(found.map Permission.id).contains pid)))
    else
      let existingAssignments := get_by_role db role_id
      let existingIds := existingAssignments.map RolePermission.permission_id
      let toAdd := desired.filter (fun pid => !existingIds.contains pid)
      let toRemove := existingIds.dedup.filter (fun pid => !desired.contains pid)
      let assignmentsToDelete :=
        existingAssignments.filter (fun rp => toRemove.contains rp.permission_id)
      let db1 :=
        if toRemove.isEmpty then db
        else rolePermissionDeleteByIds db (assignmentsToDelete.map RolePermission.id)
      let db2 :=
        if toAdd.isEmpty then db1
        else rolePermissionBulkCreate db1 role_id toAdd
      .ok { db := db2
            role := role
            permissions := get_permissions_by_role db2 role_id
            addedCount := toAdd.length
            removedCount := assignmentsToDelete.length }

/-- Persisted permission membership of a role: the permission ids of the
join rows whose role_id matches (services.py reads it as the set
comprehension over get_by_role). -/
def membership (db : DB) (role_id : Nat) : List Nat :=
  (get_by_role db role_id).map RolePermission.permission_id

/-- UserRoleRepository.get_by_user builds
select(UserRole).where(UserRole.user.id == user_id), but the UserRole model
declares no attribute named user (its columns are user_id and role_id), so
evaluating the expression UserRole.user raises AttributeError on every
call. -/
def userRoleGetByUser (_db : DB) (_user_id : Nat) : Except SvcError (List UserRole) :=
  .error (.attributeError "type object UserRole has no attribute user")

/-- RoleService.sync_user_to_roles (services.py).  Steps in source order:
build the desired role-id set; when nonempty, validate it against the roles
table and fail with HTTP 404 naming the missing ids; then read the existing
assignments via UserRoleRepository.get_by_user, which always raises (see
userRoleGetByUser); the remaining reconciliation (delete_by_ids of the rows
to remove, then a call to a method named bulk_create that UserRoleRepository
does not define, the defined method being bulk_create_for_user) is embedded
after it for fidelity but is unreachable. -/
def sync_user_to_roles (db : DB) (user_id : Nat) (role_ids : List Nat) :
    Except SvcError (List UserRole) :=
  let desired := role_ids.dedup
  let found := roleGetByIds db desired
  if !desired.isEmpty && found.length != desired.length then
    .error (.notFoundMissing
      (desired.filter (fun rid => !(found.map Role.id).contains rid)))
  else
    match userRoleGetByUser db user_id with
    | .error e => .error e
    | .ok existingAssignments =>
      let existingIds := existingAssignments.map UserRole.role_id
      let toAdd := desired.filter (fun rid => !existingIds.contains rid)
      let _toRemove := existingIds.dedup.filter (fun rid => !desired.contains rid)
      if toAdd.isEmpty then
        .ok (db.userRoles.filter (fun ur => ur.user_id == user_id))
      else
        .error (.attributeError "UserRoleRepository object has no attribute bulk_create")

end Authz

section AuthzSmoke

/-- Smoke-test database for the authorization domain. -/
def authzDemo : Authz.DB :=
  { roles := [⟨10, "admin", true⟩]
    permissions := [⟨1, "users", "create"⟩, ⟨2, "users", "read"⟩,
                    ⟨3, "users", "update"⟩, ⟨4, "users", "delete"⟩]
    rolePermissions := [⟨100, 10, 1⟩, ⟨101, 10, 2⟩, ⟨102, 10, 3⟩]
    userRoles := []
    nextId := 200 }

end AuthzSmoke

/-- Whether an embedded sync_permissions outcome is the HTTP 404 that names
missing related ids (the failure shape the claim requires). -/
def failsWithNotFoundNaming : Except SvcError Authz.SyncOutcome → Bool
  | .error (.notFoundMissing _) => true
  | _ => false

/-- The empty authorization database. -/
def emptyAuthzDb : Authz.DB := ⟨[], [], [], [], 0⟩

/-- The join rows the claim says survive a sync of role rid to desired set
pids: every row not belonging to rid, plus the rows of rid whose permission
is in the desired set. -/
def Authz.keptRows (db : Authz.DB) (rid : Nat) (pids : List Nat) :
    List Authz.RolePermission :=
  db.rolePermissions.filter
    (fun rp => !(rp.role_id == rid && !pids.contains rp.permission_id))

/-- The permission ids the claim says are added: desired minus existing. -/
def Authz.addedIds (db : Authz.DB) (rid : Nat) (pids : List Nat) : List Nat :=
  pids.dedup.filter (fun pid => !(Authz.membership db rid).contains pid)

/-- The join rows the claim says are removed: the rows of rid whose
permission id is in existing minus desired. -/
def Authz.removedRows (db : Authz.DB) (rid : Nat) (pids : List Nat) :
    List Authz.RolePermission :=
  (Authz.get_by_role db rid).filter (fun rp => !pids.contains rp.permission_id)

/-- The database the claim describes after the sync: kept rows plus freshly
keyed rows for the added ids, other tables untouched. -/
def Authz.syncedDb (db : Authz.DB) (rid : Nat) (pids : List Nat) : Authz.DB :=
  { db with
    rolePermissions := Authz.keptRows db rid pids ++
      Authz.mkRolePermissionRows db.nextId rid (Authz.addedIds db rid pids)
    nextId := db.nextId + (Authz.addedIds db rid pids).length }

namespace Auth

/-- Row of the users table (domains/authentication/models.py, class User,
with the columns contributed by BaseModel, TimestampMixin and
SoftDeleteMixin).  datetime columns are Nat timestamps; nullable columns are
Option. -/
structure User where
  id : Nat
  created_at : Nat
  updated_at : Nat
  deleted_at : Option Nat
  username : String
  email : String
  password_hash : String
  full_name : Option String
  is_active : Bool
  is_email_verified : Bool
  email_verified_at : Option Nat
  password_changed_at : Option Nat
deriving Repr, DecidableEq

/-- Database state of the authentication domain: the users table plus the
fresh-id counter. -/
structure DB where
  users : List User
  nextId : Nat
deriving Repr, DecidableEq

/-- Value of a model column, as used for getattr-based filtering in
BaseRepository: string, nat (ids and timestamps), bool, and their nullable
variants. -/
inductive FieldVal where
  | n (v : Nat)
  | s (v : String)
  | b (v : Bool)
  | on (v : Option Nat)
  | os (v : Option String)
deriving Repr, DecidableEq

/-- Embedding of getattr(User, field): some accessor when hasattr(User,
field) holds, none otherwise.  The branches list exactly the columns the
User model declares. -/
def userAttr? (field : String) : Option (User → FieldVal) :=
  match field with
  | "id" => some (fun u => .n u.id)
  | "created_at" => some (fun u => .n u.created_at)
  | "updated_at" => some (fun u => .n u.updated_at)
  | "deleted_at" => some (fun u => .on u.deleted_at)
  | "username" => some (fun u => .s u.username)
  | "email" => some (fun u => .s u.email)
  | "password_hash" => some (fun u => .s u.password_hash)
  | "full_name" => some (fun u => .os u.full_name)
  | "is_active" => some (fun u => .b u.is_active)
  | "is_email_verified" => some (fun u => .b u.is_email_verified)
  | "email_verified_at" => some (fun u => .on u.email_verified_at)
  | "password_changed_at" => some (fun u => .on u.password_changed_at)
  | _ => none

/-- BaseRepository.get: session.get(self.model, id), a primary-key lookup
that does not consult deleted_at. -/
def repoGet (db : DB) (id : Nat) : Option User :=
  db.users.find? (fun u => u.id == id)

/-- BaseRepository.get_multi with order_by=None: select(self.model) with
offset skip and limit limit over table order.  The optional order_by only
permutes the selected rows and is not embedded; no claim depends on row
order.  Note the query has no condition on deleted_at. -/
def get_multi (db : DB) (skip : Nat := 0) (limit : Nat := 100) : List User :=
  (db.users.drop skip).take limit

/-- Row predicate applied by the where-clauses that
BaseRepository.get_multi_paginated builds from the filters dict: a conjunct
per entry whose key is an attribute of the model (hasattr check); entries
with unknown keys contribute no clause. -/
def filtersMatch (filters : List (String × FieldVal)) (u : User) : Bool :=
  filters.all (fun fv =>
    match userAttr? fv.1 with
    | some attr => attr u == fv.2
    | none => true)

/-- Case-insensitive substring test, the semantics of the SQL clause
column ILIKE percent-value-percent used by the search branch. -/
def ilikeContains (hay needle : String) : Bool :=
  let h := (hay.toLower).toList
  let nd := (needle.toLower).toList
  (List.range (h.length + 1)).any (fun i => (h.drop i).take nd.length == nd)

/-- BaseRepository.get_multi_paginated with order_by=None: applies the exact
match filters, then the ILIKE search across search_fields (fields failing
the hasattr check contribute no condition; the or_ of zero conditions is not
added).  apaginate then slices the selection into pages; the embedding
returns the whole selection, whose row membership is what the claims are
about.  Note the built query has no condition on deleted_at. -/
def get_multi_paginated (db : DB) (filters : List (String × FieldVal) := [])
    (search_fields : List String := []) (search_value : Option String := none) :
    List User :=
  let afterFilters := db.users.filter (filtersMatch filters)
  match search_value with
  | none => afterFilters
  | some sv =>
    if sv.isEmpty || search_fields.isEmpty then afterFilters
    else
      let known := search_fields.filter (fun f => (userAttr? f).isSome)
      if known.isEmpty then afterFilters
      else
        afterFilters.filter (fun u =>
          known.any (fun f =>
            match userAttr? f with
            | some attr =>
              match attr u with
              | .s v => ilikeContains v sv
              | .os (some v) => ilikeContains v sv
              | _ => false
            | none => false))

/-- BaseRepository.soft_delete: look the row up by primary key; when absent
return false; otherwise set deleted_at to the current time and return
true. -/
def soft_delete (db : DB) (id : Nat) (now : Nat) : DB × Bool :=
  match repoGet db id with
  | none => (db, false)
  | some _ =>
    ({ db with users := db.users.map (fun u =>
        if u.id == id then { u with deleted_at := some now } else u) }, true)

/-- BaseRepository.exists: one where-clause per filter entry whose key
passes the hasattr check (unknown keys are skipped silently); returns
whether the query has a first row. -/
def repoExists (db : DB) (filters : List (String × FieldVal)) : Bool :=
  !(db.users.filter (filtersMatch filters)).isEmpty

/-- BaseRepository.get_by: same filtering as repoExists, returning the first
matching row if any. -/
def get_by (db : DB) (filters : List (String × FieldVal)) : Option User :=
  (db.users.filter (filtersMatch filters)).head?

/-- BaseRepository.exists_excluding: same filtering plus the clause
self.model.id != exclude_id; returns whether a row remains. -/
def exists_excluding (db : DB) (exclude_id : Nat)
    (filters : List (String × FieldVal)) : Bool :=
  !((db.users.filter (fun u => u.id != exclude_id)).filter
      (filtersMatch filters)).isEmpty

/-- Embedding of core/security.py hash_password, an argon2 hash treated as
an opaque injective tagging function; verify_password below inverts it. -/
def hash_password (password : String) : String :=
  "argon2$" ++ password

/-- Embedding of core/security.py verify_password. -/
def verify_password (plain : String) (hashed : String) : Bool :=
  hash_password plain == hashed

/-- UserRepository.check_unique (domains/authentication/repositories.py):
select(User).where(or_(User.username == username, User.email == email)),
narrowed by id != exclude_id when exclude_id is given; note the query has no
condition on deleted_at, so soft-deleted users participate.  one_or_none
raises MultipleResultsFound when more than one row matches; with exactly one
match the source reports which field collided; with none it reports
unique. -/
def check_unique (db : DB) (username email : String)
    (exclude_id : Option Nat := none) : Except SvcError (Bool × Option String) :=
  let rows := db.users.filter (fun u =>
    (u.username == username || u.email == email) &&
    (match exclude_id with
     | some eid => u.id != eid
     | none => true))
  match rows with
  | [] => .ok (true, none)
  | [u] =>
    if u.username == username then .ok (false, some "Username exists")
    else if u.email == email then .ok (false, some "Email exists")
    else .ok (true, none)
  | _ :: _ :: _ => .error .multipleResultsFound

/-- Input of user creation: the fields of UserCreateSchema
(username, email, full_name, password); password_hash is computed from the
password by the schema. -/
structure UserCreateInput where
  username : String
  email : String
  full_name : String
  password : String
deriving Repr, DecidableEq

/-- Integration event describing a saved user
(core/events/contracts.py, class UserSavedIntegrationEvent). -/
structure UserSavedIntegrationEvent where
  user_id : Nat
  username : String
  email : String
deriving Repr, DecidableEq

/-- Events published by BaseService.after_create, the hook that runs inside
Service.create right after the repository persists the row.  Its body in
base_service.py is the statement pass, UserService does not override it, and
no other code in the repository calls EventBus.publish, so no event is ever
published on the create path. -/
def after_create_published (_obj : User) : List UserSavedIntegrationEvent :=
  []

/-- Outcome of a successful UserService.create (and of the register
endpoint, which delegates to it): the updated database, the created row, and
the integration events published on the way. -/
structure RegisterOutcome where
  db : DB
  user : User
  published : List UserSavedIntegrationEvent
deriving Repr, DecidableEq

/-- UserRepository.create as invoked by Service.create: builds the model
from the dumped schema (unknown dict keys such as the plain password are not
model columns and are dropped), fills the defaulted columns, flushes, and
returns the row. -/
def repoCreate (db : DB) (inp : UserCreateInput) (now : Nat) : DB × User :=
  let u : User :=
    { id := db.nextId
      created_at := now
      updated_at := now
      deleted_at := none
      username := inp.username
      email := inp.email
      password_hash := hash_password inp.password
      full_name := some inp.full_name
      is_active := true
      is_email_verified := false
      email_verified_at := none
      password_changed_at := none }
  ({ db with users := db.users ++ [u], nextId := db.nextId + 1 }, u)

/-- UserService.create = BaseService.create specialised by
UserService.before_create: run check_unique on the incoming username and
email, fail with HTTP 409 Conflict carrying the reported message when not
unique, otherwise persist through the repository and run after_create
(which publishes nothing, see after_create_published). -/
def userService_create (db : DB) (inp : UserCreateInput) (now : Nat) :
    Except SvcError RegisterOutcome :=
  match check_unique db inp.username inp.email with
  | .error e => .error e
  | .ok (is_unique, error_msg) =>
    if !is_unique then
      .error (.conflict (error_msg.getD ""))
    else
      let r := repoCreate db inp now
      .ok { db := r.1, user := r.2, published := after_create_published r.2 }

/-- POST /auth/register (domains/authentication/routers.py): resolves
UserService and delegates to Service.create, then commits.  The commit does
not change the embedded state, so the endpoint is Service.create. -/
def register (db : DB) (inp : UserCreateInput) (now : Nat) :
    Except SvcError RegisterOutcome :=
  userService_create db inp now

/-- Number of invocations of the authorization-domain subscriber
assign_default_roles caused by an outcome: main.py subscribes it to
UserSavedIntegrationEvent on the event bus, so it runs once per published
event of that type, and every event in the published list is of that
type. -/
def assignDefaultRolesInvocations (out : RegisterOutcome) : Nat :=
  out.published.length

/-- BaseService.get as inherited by UserService.  As with roleServiceGet:
on a missing record the source evaluates
HTTPException(status_code=404, default=...) whose keyword argument default
does not exist, so a TypeError is raised instead of the intended 404. -/
def userService_get (db : DB) (id : Nat) : Except SvcError User :=
  match repoGet db id with
  | some u => .ok u
  | none => .error (.typeError "HTTPException got an unexpected keyword argument: default")

/-- BaseService.delete for User: before_delete is a no-op; User has a
deleted_at attribute so the soft path is taken; a missing id yields HTTP 404
(this raise spells detail correctly). -/
def userService_delete (db : DB) (id : Nat) (now : Nat) : Except SvcError DB :=
  let r := soft_delete db id now
  if r.2 then .ok r.1
  else .error (.httpNotFound "Record not found")

end Auth

namespace Bus

/-- A subscribed handler, abstracted to what publish observes: an identity
and the outcome of awaiting it on the published event (none = returns,
some e = raises exception e). -/
structure Handler where
  id : Nat
  result : Option Nat
deriving Repr, DecidableEq

/-- State of SimpleEventBus: the _handlers defaultdict from concrete event
type (modelled as a Nat key, the lookup key type(event)) to the list of
handlers in subscription order. -/
def BusState := List (Nat × List Handler)

/-- Lookup self._handlers.get(type(event), []). -/
def handlersFor (bus : BusState) (ty : Nat) : List Handler :=
  match bus.find? (fun kv => kv.1 == ty) with
  | some kv => kv.2
  | none => []

/-- SimpleEventBus.subscribe: append the handler to the list of its event
type (defaultdict semantics: a missing key starts from the empty list). -/
def subscribe (bus : BusState) (ty : Nat) (h : Handler) : BusState :=
  match bus with
  | [] => [(ty, [h])]
  | kv :: rest =>
    if kv.1 == ty then (kv.1, kv.2 ++ [h]) :: rest
    else kv :: subscribe rest ty h

/-- The dispatch loop of SimpleEventBus.publish: await each handler in
order, collect exceptions; when raise_on_error is set, stop at the first
exception.  Returns the ids invoked (in invocation order) and the collected
errors list. -/
def publishRun (hs : List Handler) (raise_on_error : Bool) : List Nat × List Nat :=
  match hs with
  | [] => ([], [])
  | h :: rest =>
    match h.result with
    | none =>
      let p := publishRun rest raise_on_error
      (h.id :: p.1, p.2)
    | some e =>
      if raise_on_error then ([h.id], [e])
      else
        let p := publishRun rest raise_on_error
        (h.id :: p.1, e :: p.2)

/-- SimpleEventBus.publish: run the loop over the handlers of the concrete
event type; afterwards, when errors were collected and raise_on_error is
set, re-raise the first error.  Returns (invoked handler ids, propagated
exception if any). -/
def publish (bus : BusState) (ty : Nat) (raise_on_error : Bool) :
    List Nat × Option Nat :=
  let r := publishRun (handlersFor bus ty) raise_on_error
  (r.1, if raise_on_error then r.2.head? else none)

end Bus

namespace Sec

/-- The jwt settings the token helpers read: secret key and algorithm. -/
structure Settings where
  key : String
  alg : String
deriving Repr, DecidableEq

/-- A signed JWT as produced by jwt.encode in _create_token: the payload
claims (the caller data plus exp, iat and type) together with the signing
key and algorithm, which stand in for the signature. -/
structure Token where
  data : List (String × String)
  exp : Nat
  iat : Nat
  tokenType : String
  key : String
  alg : String
deriving Repr, DecidableEq

/-- The claims dict returned by a successful decode. -/
structure Payload where
  data : List (String × String)
  exp : Nat
  iat : Nat
  tokenType : String
deriving Repr, DecidableEq

/-- core/security.py _create_token: copy the data, compute the expiry from
expires_delta or the per-type default (15 minutes for access, 7 days
otherwise, here in seconds), stamp iat and the type claim, and sign with the
configured key and algorithm. -/
def _create_token (data : List (String × String)) (token_type : String)
    (expires_delta : Option Nat) (now : Nat) (st : Settings) : Token :=
  let expire :=
    match expires_delta with
    | some d => now + d
    | none => now + (if token_type == "access" then 15 * 60 else 7 * 24 * 60 * 60)
  { data := data, exp := expire, iat := now, tokenType := token_type
    key := st.key, alg := st.alg }

/-- core/security.py create_access_token. -/
def create_access_token (data : List (String × String))
    (expires_delta : Option Nat) (now : Nat) (st : Settings) : Token :=
  _create_token data "access" expires_delta now st

/-- core/security.py create_refresh_token. -/
def create_refresh_token (data : List (String × String))
    (expires_delta : Option Nat) (now : Nat) (st : Settings) : Token :=
  _create_token data "refresh" expires_delta now st

/-- The three distinct failure signals of _decode_token, each an HTTP 401
with its own detail string (see TokenError.detail). -/
inductive TokenError where
  | invalidTokenType (expected : String)
  | expired (expected : String)
  | couldNotValidate
deriving Repr, DecidableEq

/-- Python str.capitalize: first character uppercased, the rest
lowercased. -/
def pyCapitalize (s : String) : String :=
  match s.toList with
  | [] => ""
  | c :: rest => String.mk (c.toUpper :: rest.map Char.toLower)

/-- The detail string each failure carries in the source:
f-string Invalid token type. Expected {expected_type} for the type check,
f-string {expected_type.capitalize()} token expired for expiry, and
Could not validate credentials for signature or decoding failures. -/
def TokenError.detail : TokenError → String
  | .invalidTokenType expected => "Invalid token type. Expected " ++ expected
  | .expired expected => pyCapitalize expected ++ " token expired"
  | .couldNotValidate => "Could not validate credentials"

/-- core/security.py _decode_token: jwt.decode first verifies the signature
against the configured key and algorithm (failure raises InvalidTokenError,
mapped to the Could-not-validate signal), then validates the exp claim
(ExpiredSignatureError, mapped to the expired signal); only a
fully-validated payload reaches the type-claim comparison, whose mismatch is
mapped to the invalid-token-type signal.  That HTTPException is not a
subclass of the jwt exceptions, so the except arms do not swallow it. -/
def _decode_token (tok : Token) (expected_type : String) (now : Nat)
    (st : Settings) : Except TokenError Payload :=
  if tok.key != st.key || tok.alg != st.alg then
    .error .couldNotValidate
  else if tok.exp < now then
    .error (.expired expected_type)
  else if tok.tokenType != expected_type then
    .error (.invalidTokenType expected_type)
  else
    .ok { data := tok.data, exp := tok.exp, iat := tok.iat
          tokenType := tok.tokenType }

/-- core/security.py decode_access_token. -/
def decode_access_token (tok : Token) (now : Nat) (st : Settings) :
    Except TokenError Payload :=
  _decode_token tok "access" now st

/-- core/security.py decode_refresh_token. -/
def decode_refresh_token (tok : Token) (now : Nat) (st : Settings) :
    Except TokenError Payload :=
  _decode_token tok "refresh" now st

end Sec

section AuthSmoke

/-- Smoke-test user: alice, soft-deleted at time 5. -/
def aliceDeleted : Auth.User :=
  { id := 1, created_at := 1, updated_at := 1, deleted_at := some 5
    username := "alice", email := "alice@example.com"
    password_hash := Auth.hash_password "pw", full_name := some "Alice A"
    is_active := true, is_email_verified := false
    email_verified_at := none, password_changed_at := none }

/-- Smoke-test database holding only the soft-deleted alice. -/
def authDemo : Auth.DB := { users := [aliceDeleted], nextId := 2 }

/-- The demo user alice before deletion. -/
def aliceLive : Auth.User := { aliceDeleted with deleted_at := none }

/-- Database holding the live alice. -/
def authLiveDb : Auth.DB := { users := [aliceLive], nextId := 2 }

/-- The outcome of registering bob against an empty database. -/
def c1RegisterDemoOut : Auth.RegisterOutcome :=
  { db := { users := [{ id := 0, created_at := 3, updated_at := 3, deleted_at := none
                        username := "bob", email := "bob@example.com"
                        password_hash := "argon2$pw", full_name := some "Bob B"
                        is_active := true, is_email_verified := false
                        email_verified_at := none, password_changed_at := none }]
            nextId := 1 }
    user := { id := 0, created_at := 3, updated_at := 3, deleted_at := none
              username := "bob", email := "bob@example.com"
              password_hash := "argon2$pw", full_name := some "Bob B"
              is_active := true, is_email_verified := false
              email_verified_at := none, password_changed_at := none }
    published := [] }

end AuthSmoke

section Helpers

/-- Filtering out the filter entries whose key is not a User attribute does
not change the row predicate: entries with unknown keys contribute the
constant clause true. -/
theorem filtersMatch_keepKnown (filters : List (String × Auth.FieldVal)) (u : Auth.User) :
    Auth.filtersMatch (filters.filter (fun fv => (Auth.userAttr? fv.1).isSome)) u =
      Auth.filtersMatch filters u := by
  induction filters with
  | nil => rfl
  | cons fv rest ih =>
    unfold Auth.filtersMatch at ih ⊢
    cases h : Auth.userAttr? fv.1 with
    | none => simp [List.filter_cons, h, ih]
    | some attr => simp [List.filter_cons, h, ih]

/-- A filters list consisting only of unknown keys matches every row. -/
theorem filtersMatch_unknown (filters : List (String × Auth.FieldVal)) (u : Auth.User)
    (h : ∀ fv ∈ filters, Auth.userAttr? fv.1 = none) :
    Auth.filtersMatch filters u = true := by
  unfold Auth.filtersMatch
  simp only [List.all_eq_true]
  intro fv hfv
  rw [h fv hfv]

end Helpers

section ClaimC7

/-- C7: for every id without a record, BaseService.get does not produce the
specified HTTP 404 with a human-readable detail: the source constructs the
exception as HTTPException(status_code=..., default=...) and the unknown
keyword argument default makes the construction itself raise TypeError.  For
every id with a record, the record is returned as specified. -/
theorem userService_get_not_found_is_TypeError (db : Auth.DB) (id : Nat) :
    (Auth.repoGet db id = none →
      Auth.userService_get db id =
        .error (.typeError "HTTPException got an unexpected keyword argument: default")) ∧
    (∀ u : Auth.User, Auth.repoGet db id = some u →
      Auth.userService_get db id = .ok u) := by
  constructor
  · intro h
    unfold Auth.userService_get
    rw [h]
  · intro u h
    unfold Auth.userService_get
    rw [h]

/-- Witness: evaluates the C7 theorem on the demo database at a missing id
and at a present id. -/
theorem userService_get_not_found_is_TypeError_witness :
    Auth.userService_get authDemo 99 =
      .error (.typeError "HTTPException got an unexpected keyword argument: default") ∧
    Auth.userService_get authDemo 1 = .ok aliceDeleted :=
  ⟨(userService_get_not_found_is_TypeError authDemo 99).1 (by decide),
   (userService_get_not_found_is_TypeError authDemo 1).2 aliceDeleted (by decide)⟩

end ClaimC7

section ClaimC10

/-- C10: on exists, get_by and exists_excluding, filter keys that are not
attributes of the model are silently dropped (dropping them does not change
any of the three results), and exists invoked with only unknown keys reports
whether the table has any row at all; get_by then returns the first row and
exists_excluding only retains the id-exclusion clause. -/
theorem repo_filters_unknown_keys_ignored (db : Auth.DB) (eid : Nat)
    (filters : List (String × Auth.FieldVal)) :
    (Auth.repoExists db (filters.filter (fun fv => (Auth.userAttr? fv.1).isSome)) =
        Auth.repoExists db filters ∧
      Auth.get_by db (filters.filter (fun fv => (Auth.userAttr? fv.1).isSome)) =
        Auth.get_by db filters ∧
      Auth.exists_excluding db eid (filters.filter (fun fv => (Auth.userAttr? fv.1).isSome)) =
        Auth.exists_excluding db eid filters) ∧
    ((∀ fv ∈ filters, Auth.userAttr? fv.1 = none) →
      Auth.repoExists db filters = !db.users.isEmpty ∧
      Auth.get_by db filters = db.users.head? ∧
      Auth.exists_excluding db eid filters =
        !(db.users.filter (fun u => u.id != eid)).isEmpty) := by
  have hkeep : ∀ l : List Auth.User,
      l.filter (Auth.filtersMatch (filters.filter (fun fv => (Auth.userAttr? fv.1).isSome))) =
        l.filter (Auth.filtersMatch filters) := by
    intro l
    exact List.filter_congr (fun u _ => filtersMatch_keepKnown filters u)
  refine ⟨⟨?_, ?_, ?_⟩, ?_⟩
  · unfold Auth.repoExists
    rw [hkeep]
  · unfold Auth.get_by
    rw [hkeep]
  · unfold Auth.exists_excluding
    rw [hkeep]
  · intro h
    have hall : ∀ l : List Auth.User, l.filter (Auth.filtersMatch filters) = l := by
      intro l
      exact List.filter_eq_self.mpr (fun u _ => filtersMatch_unknown filters u h)
    refine ⟨?_, ?_, ?_⟩
    · unfold Auth.repoExists
      rw [hall]
    · unfold Auth.get_by
      rw [hall]
    · unfold Auth.exists_excluding
      rw [hall]

/-- Witness: evaluates the C10 theorem with a misspelled filter key
username_ (unknown to the model) on the demo database. -/
theorem repo_filters_unknown_keys_ignored_witness :
    Auth.repoExists authDemo [("username_", Auth.FieldVal.s "nobody")] = true ∧
    Auth.get_by authDemo [("username_", Auth.FieldVal.s "nobody")] = some aliceDeleted := by
  have h := (repo_filters_unknown_keys_ignored authDemo 0
      [("username_", Auth.FieldVal.s "nobody")]).2
    (by
      intro fv hfv
      simp only [List.mem_singleton] at hfv
      subst hfv
      rfl)
  exact ⟨by rw [h.1]; decide, by rw [h.2.1]; decide⟩

end ClaimC10

section ClaimC8

/-- Head equation of handlersFor. -/
theorem handlersFor_cons (kv : Nat × List Bus.Handler) (l : Bus.BusState) (ty : Nat) :
    Bus.handlersFor (kv :: l) ty = if kv.1 == ty then kv.2 else Bus.handlersFor l ty := by
  unfold Bus.handlersFor
  rw [List.find?_cons]
  by_cases hk : kv.1 == ty
  · simp [hk]
  · simp [hk]

/-- Subscribing appends the handler to the list of its event type. -/
theorem handlersFor_subscribe (bus : Bus.BusState) (ty : Nat) (h : Bus.Handler) :
    Bus.handlersFor (Bus.subscribe bus ty h) ty = Bus.handlersFor bus ty ++ [h] := by
  induction bus with
  | nil =>
    simp [Bus.subscribe, Bus.handlersFor]
  | cons kv rest ih =>
    unfold Bus.subscribe
    by_cases hk : kv.1 == ty
    · simp [hk, handlersFor_cons]
    · simp [hk, handlersFor_cons, ih]

/-- With raise_on_error false the dispatch loop invokes every handler in
order regardless of failures. -/
theorem publishRun_false_invokes_all (hs : List Bus.Handler) :
    (Bus.publishRun hs false).1 = hs.map Bus.Handler.id := by
  induction hs with
  | nil => rfl
  | cons h rest ih =>
    cases hr : h.result with
    | none => simp [Bus.publishRun, hr, ih]
    | some e => simp [Bus.publishRun, hr, ih]

/-- With raise_on_error true the loop stops at the first raising handler
and collects exactly its exception. -/
theorem publishRun_true_stops_at_first (pre : List Bus.Handler) (h : Bus.Handler)
    (post : List Bus.Handler) (e : Nat)
    (hpre : ∀ g ∈ pre, g.result = none) (hres : h.result = some e) :
    Bus.publishRun (pre ++ h :: post) true = (pre.map Bus.Handler.id ++ [h.id], [e]) := by
  induction pre with
  | nil =>
    simp [Bus.publishRun, hres]
  | cons g rest ih =>
    have hg : g.result = none := hpre g (by simp)
    have hrest : ∀ x ∈ rest, x.result = none := fun x hx => hpre x (by simp [hx])
    simp [Bus.publishRun, hg, ih hrest]

/-- C8: handlers subscribed to the same concrete event type are invoked in
registration order (subscribe appends, the loop walks the list front to
back); with raise_on_error false every handler runs even when earlier ones
raise and no exception propagates; with raise_on_error true dispatch stops
at the first raising handler, later handlers are not invoked, and that first
exception is re-raised to the publisher. -/
theorem event_bus_order_and_error_propagation
    (pre : List Bus.Handler) (h : Bus.Handler) (post : List Bus.Handler) (e : Nat)
    (hpre : ∀ g ∈ pre, g.result = none) (hres : h.result = some e) :
    (∀ bus ty A B, Bus.handlersFor (Bus.subscribe (Bus.subscribe bus ty A) ty B) ty =
        Bus.handlersFor bus ty ++ [A, B]) ∧
    (∀ hs : List Bus.Handler, (Bus.publishRun hs false).1 = hs.map Bus.Handler.id) ∧
    (∀ bus ty, (Bus.publish bus ty false).2 = none) ∧
    Bus.publishRun (pre ++ h :: post) true = (pre.map Bus.Handler.id ++ [h.id], [e]) ∧
    (∀ bus ty, Bus.handlersFor bus ty = pre ++ h :: post →
      Bus.publish bus ty true = (pre.map Bus.Handler.id ++ [h.id], some e)) := by
  refine ⟨?_, publishRun_false_invokes_all, ?_, ?_, ?_⟩
  · intro bus ty A B
    rw [handlersFor_subscribe, handlersFor_subscribe, List.append_assoc]
    rfl
  · intro bus ty
    rfl
  · exact publishRun_true_stops_at_first pre h post e hpre hres
  · intro bus ty hfor
    unfold Bus.publish
    rw [hfor, publishRun_true_stops_at_first pre h post e hpre hres]
    simp

/-- Witness: evaluates the C8 theorem on a bus with three handlers of event
type 5 where the second raises exception 7: with raise_on_error true only
handlers 1 and 2 run and 7 propagates; with raise_on_error false all three
run and nothing propagates. -/
theorem event_bus_order_and_error_propagation_witness :
    Bus.publishRun ([⟨1, none⟩] ++ ⟨2, some 7⟩ :: [⟨3, none⟩]) true = ([1, 2], [7]) ∧
    Bus.publish [(5, [⟨1, none⟩, ⟨2, some 7⟩, ⟨3, none⟩])] 5 true = ([1, 2], some 7) ∧
    (Bus.publish [(5, [⟨1, none⟩, ⟨2, some 7⟩, ⟨3, none⟩])] 5 false).2 = none := by
  have main := event_bus_order_and_error_propagation [⟨1, none⟩] ⟨2, some 7⟩ [⟨3, none⟩] 7
    (by decide) rfl
  refine ⟨main.2.2.2.1, main.2.2.2.2 [(5, [⟨1, none⟩, ⟨2, some 7⟩, ⟨3, none⟩])] 5 (by decide),
    main.2.2.1 [(5, [⟨1, none⟩, ⟨2, some 7⟩, ⟨3, none⟩])] 5⟩

end ClaimC8

section ClaimC9

/-- C9: a refresh token presented to decode_access_token (and an access
token presented to decode_refresh_token), when its signature is valid and it
is not expired, is rejected with the invalid-token-type signal; an expired
token with a valid signature is rejected with the expired signal; and the
three failure signals carry pairwise distinct detail strings, so wrong type,
expired and invalid signature are distinguishable. -/
theorem token_type_confusion_distinct_signal
    (data : List (String × String)) (delta : Option Nat) (now now2 : Nat)
    (st : Sec.Settings)
    (hfresh : now2 ≤ (Sec.create_refresh_token data delta now st).exp)
    (hfresh2 : now2 ≤ (Sec.create_access_token data delta now st).exp) :
    Sec.decode_access_token (Sec.create_refresh_token data delta now st) now2 st =
      .error (.invalidTokenType "access") ∧
    Sec.decode_refresh_token (Sec.create_access_token data delta now st) now2 st =
      .error (.invalidTokenType "refresh") ∧
    (∀ tok : Sec.Token, tok.key = st.key → tok.alg = st.alg → tok.exp < now2 →
      Sec.decode_access_token tok now2 st = .error (.expired "access")) ∧
    (∀ tok : Sec.Token, tok.key ≠ st.key →
      Sec.decode_access_token tok now2 st = .error .couldNotValidate) ∧
    ((Sec.TokenError.invalidTokenType "access").detail ≠
        (Sec.TokenError.expired "access").detail ∧
      (Sec.TokenError.invalidTokenType "access").detail ≠
        Sec.TokenError.couldNotValidate.detail ∧
      (Sec.TokenError.expired "access").detail ≠
        Sec.TokenError.couldNotValidate.detail ∧
      (Sec.TokenError.invalidTokenType "refresh").detail ≠
        (Sec.TokenError.expired "refresh").detail ∧
      (Sec.TokenError.invalidTokenType "refresh").detail ≠
        Sec.TokenError.couldNotValidate.detail) := by
  refine ⟨?_, ?_, ?_, ?_, by decide⟩
  · unfold Sec.decode_access_token Sec._decode_token
    have hexp : ¬ (Sec.create_refresh_token data delta now st).exp < now2 :=
      Nat.not_lt.mpr hfresh
    simp [Sec.create_refresh_token, Sec._create_token] at hexp ⊢
    omega
  · unfold Sec.decode_refresh_token Sec._decode_token
    have hexp : ¬ (Sec.create_access_token data delta now st).exp < now2 :=
      Nat.not_lt.mpr hfresh2
    simp [Sec.create_access_token, Sec._create_token] at hexp ⊢
    omega
  · intro tok hkey halg hexp
    unfold Sec.decode_access_token Sec._decode_token
    simp [hkey, halg, hexp]
  · intro tok hkey
    unfold Sec.decode_access_token Sec._decode_token
    simp [hkey]

/-- Witness: evaluates the C9 theorem at concrete settings and times. -/
theorem token_type_confusion_distinct_signal_witness :
    Sec.decode_access_token
        (Sec.create_refresh_token [("sub", "u1")] none 0 ⟨"k", "HS256"⟩) 100 ⟨"k", "HS256"⟩ =
      .error (.invalidTokenType "access") ∧
    Sec.decode_refresh_token
        (Sec.create_access_token [("sub", "u1")] none 0 ⟨"k", "HS256"⟩) 100 ⟨"k", "HS256"⟩ =
      .error (.invalidTokenType "refresh") := by
  have main := token_type_confusion_distinct_signal [("sub", "u1")] none 0 100
    ⟨"k", "HS256"⟩ (by decide) (by decide)
  exact ⟨main.1, main.2.1⟩

end ClaimC9

section ClaimC1

/-- C1: the claim says Service.create publishes an integration event after
the user is persisted so that assign_default_roles runs; in the code
BaseService.after_create is the statement pass, UserService does not
override it, and EventBus.publish has no caller anywhere, so every
successful register publishes no event and the subscriber never runs. -/
theorem register_publishes_no_integration_event (db : Auth.DB)
    (inp : Auth.UserCreateInput) (now : Nat) (out : Auth.RegisterOutcome)
    (h : Auth.register db inp now = .ok out) :
    out.published = [] ∧ Auth.assignDefaultRolesInvocations out = 0 := by
  unfold Auth.register Auth.userService_create at h
  cases hcu : Auth.check_unique db inp.username inp.email with
  | error e =>
    rw [hcu] at h
    cases h
  | ok p =>
    rw [hcu] at h
    obtain ⟨b, msg⟩ := p
    cases b with
    | false => simp at h
    | true =>
      simp only [Bool.not_true, Bool.false_eq_true, if_false] at h
      cases h
      exact ⟨rfl, rfl⟩

/-- Witness: a concrete successful register call publishes no event, so the
subscriber in the authorization domain is invoked zero times. -/
theorem register_publishes_no_integration_event_witness :
    Auth.register ⟨[], 0⟩ ⟨"bob", "bob@example.com", "Bob B", "pw"⟩ 3 =
      .ok c1RegisterDemoOut ∧
    c1RegisterDemoOut.published = [] ∧
    Auth.assignDefaultRolesInvocations c1RegisterDemoOut = 0 :=
  ⟨by decide,
   register_publishes_no_integration_event ⟨[], 0⟩ ⟨"bob", "bob@example.com", "Bob B", "pw"⟩ 3
     c1RegisterDemoOut (by decide)⟩

end ClaimC1

section ClaimC5

/-- C5 counterexample: delete soft-deletes alice (get by id returns her with
the marker set), yet get_multi and get_multi_paginated with no
caller-supplied filters still return the marked row: the listing queries in
base_repository.py contain no condition on deleted_at, so they do not omit
it as the claim states. -/
theorem listing_returns_soft_deleted_row :
    Auth.userService_delete authLiveDb 1 5 = .ok authDemo ∧
    Auth.repoGet authDemo 1 = some aliceDeleted ∧
    aliceDeleted.deleted_at = some 5 ∧
    Auth.get_multi authDemo 0 100 = [aliceDeleted] ∧
    Auth.get_multi_paginated authDemo = [aliceDeleted] := by
  decide

/-- Soft-deleting by primary key only changes the found row, and the first
row found by id afterwards is that row with the marker set. -/
theorem find?_soft_delete_map (l : List Auth.User) (id now : Nat) (u : Auth.User)
    (h : l.find? (fun x => x.id == id) = some u) :
    (l.map (fun x => if x.id == id then { x with deleted_at := some now } else x)).find?
        (fun x => x.id == id) = some { u with deleted_at := some now } := by
  induction l with
  | nil => cases h
  | cons x rest ih =>
    rw [List.map_cons]
    rw [List.find?_cons] at h ⊢
    cases hx : x.id == id with
    | true =>
      simp only [hx] at h
      injection h with h2
      subst h2
      simp [hx]
    | false =>
      simp only [hx] at h
      simp only [hx, Bool.false_eq_true, if_false]
      exact ih h

/-- C5 amended: after delete on an entity with a deletion marker, get by id
still returns the row with the marker set, but the default listing queries
do not filter on the marker: get_multi returns the whole table slice and
get_multi_paginated with no filters returns every row, both including the
freshly marked row. -/
theorem soft_deleted_rows_remain_in_listings (db : Auth.DB) (id now : Nat)
    (u : Auth.User) (h : Auth.repoGet db id = some u) :
    ∃ db2 : Auth.DB,
      Auth.userService_delete db id now = .ok db2 ∧
      Auth.repoGet db2 id = some { u with deleted_at := some now } ∧
      { u with deleted_at := some now } ∈ db2.users ∧
      Auth.get_multi db2 0 db2.users.length = db2.users ∧
      Auth.get_multi_paginated db2 = db2.users := by
  unfold Auth.userService_delete Auth.soft_delete
  unfold Auth.repoGet at h ⊢
  have hid0 := List.find?_some h
  have hid : (u.id == id) = true := hid0
  rw [h]
  refine ⟨_, rfl, ?_, ?_, ?_, ?_⟩
  · exact find?_soft_delete_map db.users id now u h
  · have hu : u ∈ db.users := List.mem_of_find?_eq_some h
    have hmem := List.mem_map_of_mem
      (fun x => if x.id == id then { x with deleted_at := some now } else x) hu
    simp only [hid] at hmem
    simpa using hmem
  · unfold Auth.get_multi
    rw [List.drop_zero, List.take_length]
  · unfold Auth.get_multi_paginated
    exact List.filter_eq_self.mpr (fun a _ => rfl)

/-- Witness: evaluates the C5 amended theorem on the demo database. -/
theorem soft_deleted_rows_remain_in_listings_witness :
    ∃ db2 : Auth.DB,
      Auth.userService_delete authLiveDb 1 5 = .ok db2 ∧
      Auth.repoGet db2 1 = some { aliceLive with deleted_at := some 5 } ∧
      { aliceLive with deleted_at := some 5 } ∈ db2.users ∧
      Auth.get_multi db2 0 db2.users.length = db2.users ∧
      Auth.get_multi_paginated db2 = db2.users :=
  soft_deleted_rows_remain_in_listings authLiveDb 1 5 aliceLive (by decide)

end ClaimC5

section ClaimC6

/-- C6 counterexample: alice is soft-deleted, yet creating a new user with
her username fails with Conflict: check_unique in repositories.py has no
condition on deleted_at, so a new user may NOT reuse a soft-deleted
username, contrary to the claim. -/
theorem create_conflicts_with_soft_deleted_username :
    aliceDeleted.deleted_at = some 5 ∧
    authDemo.users = [aliceDeleted] ∧
    Auth.userService_create authDemo ⟨"alice", "fresh@example.com", "Alice B", "x"⟩ 9 =
      .error (.conflict "Username exists") := by
  decide

/-- check_unique with no exclusion id, rephrased over the plain
username-or-email filter (the exclusion clause degenerates to true). -/
theorem check_unique_none_eq (db : Auth.DB) (username email : String) :
    Auth.check_unique db username email none =
      (match db.users.filter (fun y => y.username == username || y.email == email) with
       | [] => .ok (true, none)
       | [x] =>
         if x.username == username then .ok (false, some "Username exists")
         else if x.email == email then .ok (false, some "Email exists")
         else .ok (true, none)
       | _ :: _ :: _ => .error .multipleResultsFound) := by
  unfold Auth.check_unique
  rw [List.filter_congr (fun y _ => Bool.and_true _)]

/-- C6 amended: uniqueness at creation is enforced against ALL users,
soft-deleted ones included, on both unique fields.  Parts one and two: from
a state where the relevant usernames and emails are globally fresh, the
first create succeeds and a second create with the same username (part one)
or the same email (part two) fails with Conflict carrying the matching
message.  Parts three and four: when the only user matching the new
username or email is a soft-deleted user holding that username (part three)
or that email (part four), create still fails with Conflict: no reuse of a
soft-deleted username or email.  Parts five and six: the update-side check
excludes exactly the record itself via its exclude_id clause: with the
record itself as the only match it reports unique (part five), while a
matching record other than the excluded one still reports the conflict
(part six). -/
theorem user_uniqueness_checked_against_all_users
    (db : Auth.DB) (u e1 e2 f1 f2 p1 p2 : String) (n1 n2 : Nat)
    (hfresh : ∀ x ∈ db.users, x.username ≠ u ∧ x.email ≠ e1 ∧ x.email ≠ e2) :
    (∃ out : Auth.RegisterOutcome,
      Auth.userService_create db ⟨u, e1, f1, p1⟩ n1 = .ok out ∧
      Auth.userService_create out.db ⟨u, e2, f2, p2⟩ n2 =
        .error (.conflict "Username exists")) ∧
    (∀ (dbe : Auth.DB) (ua ub ee fa fb pa pb : String) (na nb : Nat),
      (∀ x ∈ dbe.users, x.username ≠ ua ∧ x.username ≠ ub ∧ x.email ≠ ee) →
      ub ≠ ua →
      ∃ out : Auth.RegisterOutcome,
        Auth.userService_create dbe ⟨ua, ee, fa, pa⟩ na = .ok out ∧
        Auth.userService_create out.db ⟨ub, ee, fb, pb⟩ nb =
          .error (.conflict "Email exists")) ∧
    (∀ (db2 : Auth.DB) (x : Auth.User) (e f p : String) (n t : Nat),
      db2.users.filter (fun y => y.username == u || y.email == e) = [x] →
      x.deleted_at = some t →
      x.username = u →
      Auth.userService_create db2 ⟨u, e, f, p⟩ n = .error (.conflict "Username exists")) ∧
    (∀ (db5 : Auth.DB) (x : Auth.User) (uu ee f p : String) (n t : Nat),
      db5.users.filter (fun y => y.username == uu || y.email == ee) = [x] →
      x.deleted_at = some t →
      x.email = ee →
      x.username ≠ uu →
      Auth.userService_create db5 ⟨uu, ee, f, p⟩ n = .error (.conflict "Email exists")) ∧
    (∀ (db3 : Auth.DB) (x : Auth.User) (e : String),
      db3.users.filter (fun y => y.username == u || y.email == e) = [x] →
      Auth.check_unique db3 u e (some x.id) = .ok (true, none)) ∧
    (∀ (db6 : Auth.DB) (x : Auth.User) (uu ee : String) (eid : Nat),
      db6.users.filter (fun y => y.username == uu || y.email == ee) = [x] →
      x.id ≠ eid →
      x.username = uu →
      Auth.check_unique db6 uu ee (some eid) = .ok (false, some "Username exists")) := by
  refine ⟨?_, ?_, ?_, ?_, ?_, ?_⟩
  · have hne1 : ∀ y ∈ db.users, ((y.username == u || y.email == e1) = false) := by
      intro y hy
      have hy2 := hfresh y hy
      simp [hy2.1, hy2.2.1]
    have hcu1 : Auth.check_unique db u e1 none = .ok (true, none) := by
      rw [check_unique_none_eq]
      rw [List.filter_eq_nil_iff.mpr (fun y hy => by simp [hne1 y hy])]
    have hstep1 : Auth.userService_create db ⟨u, e1, f1, p1⟩ n1 =
        .ok { db := (Auth.repoCreate db ⟨u, e1, f1, p1⟩ n1).1
              user := (Auth.repoCreate db ⟨u, e1, f1, p1⟩ n1).2
              published := [] } := by
      unfold Auth.userService_create
      rw [hcu1]
      rfl
    refine ⟨_, hstep1, ?_⟩
    have hne2 : ∀ y ∈ db.users, ((y.username == u || y.email == e2) = false) := by
      intro y hy
      have hy2 := hfresh y hy
      simp [hy2.1, hy2.2.2]
    have hcu2 : Auth.check_unique (Auth.repoCreate db ⟨u, e1, f1, p1⟩ n1).1 u e2 none =
        .ok (false, some "Username exists") := by
      rw [check_unique_none_eq]
      have hrows : (Auth.repoCreate db ⟨u, e1, f1, p1⟩ n1).1.users.filter
          (fun y => y.username == u || y.email == e2) =
          [(Auth.repoCreate db ⟨u, e1, f1, p1⟩ n1).2] := by
        show (db.users ++ [(Auth.repoCreate db ⟨u, e1, f1, p1⟩ n1).2]).filter _ = _
        rw [List.filter_append]
        rw [List.filter_eq_nil_iff.mpr (fun y hy => by simp [hne2 y hy])]
        simp [Auth.repoCreate]
      rw [hrows]
      simp [Auth.repoCreate]
    unfold Auth.userService_create
    rw [hcu2]
    rfl
  · intro dbe ua ub ee fa fb pa pb na nb hfreshe hba
    have hne1 : ∀ y ∈ dbe.users, ((y.username == ua || y.email == ee) = false) := by
      intro y hy
      have hy2 := hfreshe y hy
      simp [hy2.1, hy2.2.2]
    have hcu1 : Auth.check_unique dbe ua ee none = .ok (true, none) := by
      rw [check_unique_none_eq]
      rw [List.filter_eq_nil_iff.mpr (fun y hy => by simp [hne1 y hy])]
    have hstep1 : Auth.userService_create dbe ⟨ua, ee, fa, pa⟩ na =
        .ok { db := (Auth.repoCreate dbe ⟨ua, ee, fa, pa⟩ na).1
              user := (Auth.repoCreate dbe ⟨ua, ee, fa, pa⟩ na).2
              published := [] } := by
      unfold Auth.userService_create
      rw [hcu1]
      rfl
    refine ⟨_, hstep1, ?_⟩
    have hne2 : ∀ y ∈ dbe.users, ((y.username == ub || y.email == ee) = false) := by
      intro y hy
      have hy2 := hfreshe y hy
      simp [hy2.2.1, hy2.2.2]
    have hcu2 : Auth.check_unique (Auth.repoCreate dbe ⟨ua, ee, fa, pa⟩ na).1 ub ee none =
        .ok (false, some "Email exists") := by
      rw [check_unique_none_eq]
      have hrows : (Auth.repoCreate dbe ⟨ua, ee, fa, pa⟩ na).1.users.filter
          (fun y => y.username == ub || y.email == ee) =
          [(Auth.repoCreate dbe ⟨ua, ee, fa, pa⟩ na).2] := by
        show (dbe.users ++ [(Auth.repoCreate dbe ⟨ua, ee, fa, pa⟩ na).2]).filter _ = _
        rw [List.filter_append]
        rw [List.filter_eq_nil_iff.mpr (fun y hy => by simp [hne2 y hy])]
        simp [Auth.repoCreate]
      rw [hrows]
      simp [Auth.repoCreate, Ne.symm hba]
    unfold Auth.userService_create
    rw [hcu2]
    rfl
  · intro db2 x e f p n t hrows hdel husr
    have hcu : Auth.check_unique db2 u e none = .ok (false, some "Username exists") := by
      rw [check_unique_none_eq, hrows]
      simp [husr]
    unfold Auth.userService_create
    rw [hcu]
    rfl
  · intro db5 x uu ee f p n t hrows hdel hmail hneu
    have hcu : Auth.check_unique db5 uu ee none = .ok (false, some "Email exists") := by
      rw [check_unique_none_eq, hrows]
      have hub : (x.username == uu) = false := beq_eq_false_iff_ne.mpr hneu
      simp [hub, hmail]
    unfold Auth.userService_create
    rw [hcu]
    rfl
  · intro db3 x e hrows
    unfold Auth.check_unique
    have hrows2 : db3.users.filter (fun y =>
        (y.username == u || y.email == e) &&
        (match (some x.id : Option Nat) with
         | some eid => y.id != eid
         | none => true)) = List.filter (fun y => y.id != x.id) [x] := by
      rw [List.filter_congr (fun y _ => Bool.and_comm _ _)]
      rw [← List.filter_filter]
      rw [hrows]
    rw [hrows2]
    simp
  · intro db6 x uu ee eid hrows hne husr
    unfold Auth.check_unique
    have hrows2 : db6.users.filter (fun y =>
        (y.username == uu || y.email == ee) &&
        (match (some eid : Option Nat) with
         | some eid => y.id != eid
         | none => true)) = List.filter (fun y => y.id != eid) [x] := by
      rw [List.filter_congr (fun y _ => Bool.and_comm _ _)]
      rw [← List.filter_filter]
      rw [hrows]
    rw [hrows2]
    have hxne : (x.id != eid) = true := bne_iff_ne.mpr hne
    simp [hxne, husr]

/-- Witness: evaluates the C6 amended theorem: parts one and two from the
empty database (a second alice conflicts on username; a second holder of a
shared email conflicts on email), parts three to six on the demo database
whose only user is the soft-deleted alice (her username and her email both
block creation; the update-side check passes when excluding alice herself
and conflicts when excluding some other id). -/
theorem user_uniqueness_checked_against_all_users_witness :
    (∃ out : Auth.RegisterOutcome,
      Auth.userService_create ⟨[], 0⟩ ⟨"alice", "a1@example.com", "A", "p"⟩ 1 = .ok out ∧
      Auth.userService_create out.db ⟨"alice", "a2@example.com", "B", "q"⟩ 2 =
        .error (.conflict "Username exists")) ∧
    (∃ out : Auth.RegisterOutcome,
      Auth.userService_create ⟨[], 0⟩ ⟨"anna", "shared@example.com", "A", "p"⟩ 1 = .ok out ∧
      Auth.userService_create out.db ⟨"beth", "shared@example.com", "B", "q"⟩ 2 =
        .error (.conflict "Email exists")) ∧
    Auth.userService_create authDemo ⟨"alice", "zz@example.com", "Z", "p"⟩ 9 =
      .error (.conflict "Username exists") ∧
    Auth.userService_create authDemo ⟨"zed", "alice@example.com", "Z", "p"⟩ 9 =
      .error (.conflict "Email exists") ∧
    Auth.check_unique authDemo "alice" "zz@example.com" (some 1) = .ok (true, none) ∧
    Auth.check_unique authDemo "alice" "qq@example.com" (some 42) =
      .ok (false, some "Username exists") := by
  have main := user_uniqueness_checked_against_all_users ⟨[], 0⟩ "alice"
    "a1@example.com" "a2@example.com" "A" "B" "p" "q" 1 2 (by simp)
  refine ⟨main.1, ?_, ?_, ?_, ?_, ?_⟩
  · exact main.2.1 ⟨[], 0⟩ "anna" "beth" "shared@example.com" "A" "B" "p" "q" 1 2
      (by simp) (by decide)
  · exact main.2.2.1 authDemo aliceDeleted "zz@example.com" "Z" "p" 9 5 (by decide) rfl rfl
  · exact main.2.2.2.1 authDemo aliceDeleted "zed" "alice@example.com" "Z" "p" 9 5
      (by decide) rfl rfl (by decide)
  · exact main.2.2.2.2.1 authDemo aliceDeleted "zz@example.com" (by decide)
  · exact main.2.2.2.2.2 authDemo aliceDeleted "alice" "qq@example.com" 42
      (by decide) (by decide) rfl

end ClaimC6

section CountingHelpers

/-- List.contains agrees with decidable membership on Nat lists. -/
theorem contains_eq_decide_mem (l : List Nat) (a : Nat) :
    l.contains a = decide (a ∈ l) :=
  List.elem_eq_mem a l

/-- Two Nodup Nat lists restricted to each other have equal lengths: both
filters enumerate the same intersection. -/
theorem length_filter_contains_comm {ids d : List Nat}
    (h1 : ids.Nodup) (h2 : d.Nodup) :
    (ids.filter (fun a => d.contains a)).length =
      (d.filter (fun a => ids.contains a)).length := by
  have hperm : (ids.filter (fun a => d.contains a)).Perm
      (d.filter (fun a => ids.contains a)) := by
    apply List.perm_of_nodup_nodup_toFinset_eq (h1.filter _) (h2.filter _)
    ext a
    simp only [List.mem_toFinset, List.mem_filter, contains_eq_decide_mem,
      decide_eq_true_eq]
    exact and_comm
  exact hperm.length_eq

/-- Rows filtered by membership of their id in d are counted by the ids of d
that occur among the row ids, provided the row ids are Nodup. -/
theorem length_filter_by_ids {A : Type} (f : A → Nat) (l : List A) (d : List Nat)
    (hN : (l.map f).Nodup) (hd : d.Nodup) :
    (l.filter (fun x => d.contains (f x))).length =
      (d.filter (fun a => (l.map f).contains a)).length := by
  have h1 : (l.map f).filter (fun a => d.contains a) =
      (l.filter (fun x => d.contains (f x))).map f := by
    rw [List.filter_map]
    rfl
  have h2 := length_filter_contains_comm hN hd
  rw [h1, List.length_map] at h2
  exact h2

/-- The ids of the rows selected by an id-membership filter are the list ids
restricted to d. -/
theorem map_filter_by_ids {A : Type} (f : A → Nat) (l : List A) (d : List Nat) :
    (l.filter (fun x => d.contains (f x))).map f =
      (l.map f).filter (fun a => d.contains a) := by
  rw [List.filter_map]
  rfl

end CountingHelpers

section ClaimC4

/-- C4: the claim says sync_user_to_roles reconciles the join table and
returns the refreshed membership without raising; in the code the very first
repository read, UserRoleRepository.get_by_user, builds its query from
UserRole.user.id although the UserRole model has no attribute user, so for
every call that passes role validation the operation raises AttributeError
instead of reconciling (and the add path would additionally call the
undefined method bulk_create, the defined one being bulk_create_for_user). -/
theorem sync_user_to_roles_raises_AttributeError (db : Authz.DB) (user_id : Nat)
    (role_ids : List Nat)
    (hN : (db.roles.map Authz.Role.id).Nodup)
    (hAll : ∀ rid ∈ role_ids, rid ∈ db.roles.map Authz.Role.id) :
    Authz.sync_user_to_roles db user_id role_ids =
      .error (.attributeError "type object UserRole has no attribute user") := by
  have hlen : (Authz.roleGetByIds db role_ids.dedup).length = role_ids.dedup.length := by
    unfold Authz.roleGetByIds
    rw [length_filter_by_ids Authz.Role.id db.roles role_ids.dedup hN (List.nodup_dedup _)]
    have hsub : ∀ a ∈ role_ids.dedup, ((db.roles.map Authz.Role.id).contains a) = true := by
      intro a ha
      rw [contains_eq_decide_mem]
      exact decide_eq_true (hAll a (List.mem_dedup.mp ha))
    rw [List.filter_eq_self.mpr hsub]
  unfold Authz.sync_user_to_roles
  simp [hlen, Authz.userRoleGetByUser]

/-- Witness: evaluates the C4 theorem on the demo database (role 10 exists)
for user 7. -/
theorem sync_user_to_roles_raises_AttributeError_witness :
    Authz.sync_user_to_roles authzDemo 7 [10] =
      .error (.attributeError "type object UserRole has no attribute user") :=
  sync_user_to_roles_raises_AttributeError authzDemo 7 [10] (by decide) (by decide)

end ClaimC4

section ClaimC3

/-- C3 counterexample: with role id 1 absent and permission id 5 absent, the
call fails, but not with a not-found error naming the missing permission
ids: BaseService.get runs first and its broken HTTPException construction
(keyword argument default) raises TypeError, so the claim as stated is false
for this call. -/
theorem sync_permissions_missing_role_breaks_claim :
    emptyAuthzDb.permissions = [] ∧
    failsWithNotFoundNaming (Authz.sync_permissions emptyAuthzDb 1 [5]) = false ∧
    Authz.sync_permissions emptyAuthzDb 1 [5] =
      .error (.typeError "HTTPException got an unexpected keyword argument: default") := by
  decide

/-- C3 amended: provided the role id refers to an existing role, a desired
set containing at least one id of no existing permission makes
sync_permissions fail with the 404 naming exactly the missing ids, and the
failure happens in the validation step, before any join row is added or
removed (the error is returned before the reconciliation code runs, so the
membership is untouched). -/
theorem sync_permissions_validates_before_any_write (db : Authz.DB) (role_id : Nat)
    (permission_ids : List Nat)
    (hRole : ∃ r ∈ db.roles, r.id = role_id)
    (hN : (db.permissions.map Authz.Permission.id).Nodup)
    (hMissing : ∃ pid ∈ permission_ids, pid ∉ db.permissions.map Authz.Permission.id) :
    Authz.sync_permissions db role_id permission_ids =
      .error (.notFoundMissing (permission_ids.dedup.filter
        (fun pid => !(db.permissions.map Authz.Permission.id).contains pid))) ∧
    permission_ids.dedup.filter
        (fun pid => !(db.permissions.map Authz.Permission.id).contains pid) ≠ [] := by
  obtain ⟨pid0, hpid0, hpid0miss⟩ := hMissing
  obtain ⟨r, hr, hrid⟩ := hRole
  have hget : ∃ r0, Authz.roleServiceGet db role_id = .ok r0 := by
    unfold Authz.roleServiceGet
    cases hfind : db.roles.find? (fun x => x.id == role_id) with
    | none =>
      exfalso
      have := List.find?_eq_none.mp hfind r hr
      exact this (by simp [hrid])
    | some r0 => exact ⟨r0, rfl⟩
  obtain ⟨r0, hget⟩ := hget
  have hlen : (Authz.permissionGetByIds db permission_ids.dedup).length ≠
      permission_ids.dedup.length := by
    unfold Authz.permissionGetByIds
    rw [length_filter_by_ids Authz.Permission.id db.permissions permission_ids.dedup hN
      (List.nodup_dedup _)]
    intro heq
    have hall := List.filter_length_eq_length.mp heq
    have := hall pid0 (List.mem_dedup.mpr hpid0)
    rw [contains_eq_decide_mem] at this
    exact hpid0miss (of_decide_eq_true this)
  have hmem0 : pid0 ∈ permission_ids.dedup := List.mem_dedup.mpr hpid0
  have hne : permission_ids.dedup.isEmpty = false := by
    cases hd : permission_ids.dedup with
    | nil =>
      rw [hd] at hmem0
      cases hmem0
    | cons a l => rfl
  have hbne : ((Authz.permissionGetByIds db permission_ids.dedup).length !=
      permission_ids.dedup.length) = true := bne_iff_ne.mpr hlen
  have hcond : (!permission_ids.dedup.isEmpty &&
      (Authz.permissionGetByIds db permission_ids.dedup).length !=
        permission_ids.dedup.length) = true := by
    rw [hne, hbne]
    rfl
  have hM : permission_ids.dedup.filter
      (fun pid => !((Authz.permissionGetByIds db permission_ids.dedup).map
        Authz.Permission.id).contains pid) =
      permission_ids.dedup.filter
      (fun pid => !(db.permissions.map Authz.Permission.id).contains pid) := by
    apply List.filter_congr
    intro pid hpid
    have hfoundIds : (Authz.permissionGetByIds db permission_ids.dedup).map
        Authz.Permission.id =
        (db.permissions.map Authz.Permission.id).filter
          (fun a => permission_ids.dedup.contains a) := by
      unfold Authz.permissionGetByIds
      exact map_filter_by_ids Authz.Permission.id db.permissions permission_ids.dedup
    rw [hfoundIds, contains_eq_decide_mem, contains_eq_decide_mem]
    have hiff : pid ∈ (db.permissions.map Authz.Permission.id).filter
        (fun a => permission_ids.dedup.contains a) ↔
        pid ∈ db.permissions.map Authz.Permission.id := by
      rw [List.mem_filter]
      constructor
      · exact fun h => h.1
      · intro h
        refine ⟨h, ?_⟩
        rw [contains_eq_decide_mem]
        exact decide_eq_true hpid
    rw [decide_eq_decide.mpr hiff]
  have hMne : permission_ids.dedup.filter
      (fun pid => !(db.permissions.map Authz.Permission.id).contains pid) ≠ [] := by
    intro hnil
    have hin : pid0 ∈ permission_ids.dedup.filter
        (fun pid => !(db.permissions.map Authz.Permission.id).contains pid) := by
      rw [List.mem_filter]
      refine ⟨hmem0, ?_⟩
      rw [contains_eq_decide_mem]
      simp [hpid0miss]
    rw [hnil] at hin
    cases hin
  refine ⟨?_, hMne⟩
  unfold Authz.sync_permissions
  rw [hget]
  dsimp only
  rw [if_pos hcond, hM]

/-- Witness: evaluates the C3 amended theorem on the demo database with
desired set containing the absent permission id 9. -/
theorem sync_permissions_validates_before_any_write_witness :
    Authz.sync_permissions authzDemo 10 [2, 9] = .error (.notFoundMissing [9]) ∧
    [2, 9].dedup.filter
        (fun pid => !(authzDemo.permissions.map Authz.Permission.id).contains pid) ≠ [] := by
  have main := sync_permissions_validates_before_any_write authzDemo 10 [2, 9]
    ⟨⟨10, "admin", true⟩, by decide, rfl⟩ (by decide) ⟨9, by decide, by decide⟩
  refine ⟨?_, main.2⟩
  rw [main.1]
  rfl

end ClaimC3

section ClaimC2

/-- Deleting by the primary keys of the rows selected by a predicate removes
exactly the selected rows, when the primary keys are Nodup. -/
theorem filter_not_selected_ids (l : List Authz.RolePermission)
    (q : Authz.RolePermission → Bool)
    (hN : (l.map Authz.RolePermission.id).Nodup) :
    l.filter (fun rp => !((l.filter q).map Authz.RolePermission.id).contains rp.id) =
      l.filter (fun rp => !q rp) := by
  apply List.filter_congr
  intro rp hrp
  congr 1
  rw [contains_eq_decide_mem]
  cases hq : q rp with
  | true =>
    apply decide_eq_true
    exact List.mem_map_of_mem _ (List.mem_filter.mpr ⟨hrp, hq⟩)
  | false =>
    apply decide_eq_false
    intro hmem
    obtain ⟨rp2, hrp2, hid⟩ := List.mem_map.mp hmem
    have hrp2l : rp2 ∈ l := (List.mem_filter.mp hrp2).1
    have hq2 : q rp2 = true := (List.mem_filter.mp hrp2).2
    have heq : rp2 = rp := List.inj_on_of_nodup_map hN hrp2l hrp hid
    rw [heq] at hq2
    rw [hq2] at hq
    cases hq

/-- Bulk-created rows all carry the requested role id. -/
theorem mkRows_filter_role (s rid : Nat) (l : List Nat) :
    (Authz.mkRolePermissionRows s rid l).filter (fun rp => rp.role_id == rid) =
      Authz.mkRolePermissionRows s rid l := by
  induction l generalizing s with
  | nil => rfl
  | cons pid rest ih => simp [Authz.mkRolePermissionRows, ih]

/-- Bulk-created rows carry exactly the requested permission ids, in
order. -/
theorem mkRows_map_pid (s rid : Nat) (l : List Nat) :
    (Authz.mkRolePermissionRows s rid l).map Authz.RolePermission.permission_id = l := by
  induction l generalizing s with
  | nil => rfl
  | cons pid rest ih => simp [Authz.mkRolePermissionRows, ih]

/-- Deduplication does not change contains. -/
theorem contains_dedup (l : List Nat) (a : Nat) : l.dedup.contains a = l.contains a := by
  rw [contains_eq_decide_mem, contains_eq_decide_mem]
  exact decide_eq_decide.mpr List.mem_dedup

/-- The membership of the synced role splits into the kept rows of the role
and the added ids. -/
theorem membership_syncedDb (db : Authz.DB) (rid : Nat) (pids : List Nat) :
    Authz.membership (Authz.syncedDb db rid pids) rid =
      ((Authz.keptRows db rid pids).filter (fun rp => rp.role_id == rid)).map
        Authz.RolePermission.permission_id ++ Authz.addedIds db rid pids := by
  unfold Authz.membership Authz.get_by_role Authz.syncedDb
  dsimp only
  rw [List.filter_append, List.map_append, mkRows_filter_role, mkRows_map_pid]

/-- The persisted membership of the synced role is exactly the desired
set. -/
theorem mem_membership_syncedDb (db : Authz.DB) (rid : Nat) (pids : List Nat)
    (pid : Nat) :
    pid ∈ Authz.membership (Authz.syncedDb db rid pids) rid ↔ pid ∈ pids := by
  rw [membership_syncedDb, List.mem_append]
  constructor
  · rintro (hk | ha)
    · obtain ⟨rp, hrp, hpid⟩ := List.mem_map.mp hk
      obtain ⟨hrpk, hrole⟩ := List.mem_filter.mp hrp
      obtain ⟨hrpl, hkeep⟩ := List.mem_filter.mp hrpk
      rw [hrole] at hkeep
      simp only [Bool.true_and, Bool.not_not] at hkeep
      subst hpid
      rw [contains_eq_decide_mem] at hkeep
      exact of_decide_eq_true hkeep
    · have hmf := List.mem_filter.mp ha
      exact List.mem_dedup.mp hmf.1
  · intro hp
    by_cases hx : pid ∈ Authz.membership db rid
    · left
      obtain ⟨rp, hrpE, hpid⟩ := List.mem_map.mp hx
      obtain ⟨hrpl, hrole⟩ := List.mem_filter.mp hrpE
      apply List.mem_map.mpr
      refine ⟨rp, ?_, hpid⟩
      apply List.mem_filter.mpr
      refine ⟨?_, hrole⟩
      apply List.mem_filter.mpr
      refine ⟨hrpl, ?_⟩
      rw [hrole]
      subst hpid
      rw [contains_eq_decide_mem]
      simp [hp]
    · right
      apply List.mem_filter.mpr
      refine ⟨List.mem_dedup.mpr hp, ?_⟩
      rw [contains_eq_decide_mem]
      simp [hx]

/-- C2: sync_permissions performs a minimal differential sync.  The returned
state is exactly the kept rows (all rows except those of the role whose
permission is no longer desired) plus freshly keyed rows for desired minus
existing, so it adds exactly desired minus existing, removes exactly
existing minus desired and touches no other join row; the write counters
equal the sizes of those two differences; the persisted membership
afterwards is exactly the desired set; and running the same sync again
performs zero writes and returns the identical state and membership. -/
theorem sync_permissions_differential_and_idempotent
    (db : Authz.DB) (rid : Nat) (pids : List Nat)
    (hRole : ∃ r ∈ db.roles, r.id = rid)
    (hNperm : (db.permissions.map Authz.Permission.id).Nodup)
    (hNrp : (db.rolePermissions.map Authz.RolePermission.id).Nodup)
    (hAll : ∀ pid ∈ pids, pid ∈ db.permissions.map Authz.Permission.id) :
    ∃ r0 : Authz.Role,
      Authz.sync_permissions db rid pids = .ok
        { db := Authz.syncedDb db rid pids
          role := r0
          permissions := Authz.get_permissions_by_role (Authz.syncedDb db rid pids) rid
          addedCount := (Authz.addedIds db rid pids).length
          removedCount := (Authz.removedRows db rid pids).length } ∧
      (∀ pid, pid ∈ Authz.membership (Authz.syncedDb db rid pids) rid ↔ pid ∈ pids) ∧
      Authz.sync_permissions (Authz.syncedDb db rid pids) rid pids = .ok
        { db := Authz.syncedDb db rid pids
          role := r0
          permissions := Authz.get_permissions_by_role (Authz.syncedDb db rid pids) rid
          addedCount := 0
          removedCount := 0 } := by
  obtain ⟨r, hr, hrid⟩ := hRole
  have hget : ∃ r0, Authz.roleServiceGet db rid = .ok r0 := by
    unfold Authz.roleServiceGet
    cases hfind : db.roles.find? (fun x => x.id == rid) with
    | none =>
      exfalso
      exact (List.find?_eq_none.mp hfind r hr) (by simp [hrid])
    | some r0 => exact ⟨r0, rfl⟩
  obtain ⟨r0, hget⟩ := hget
  have hlenEq : (Authz.permissionGetByIds db pids.dedup).length = pids.dedup.length := by
    unfold Authz.permissionGetByIds
    rw [length_filter_by_ids Authz.Permission.id db.permissions pids.dedup hNperm
      (List.nodup_dedup _)]
    have hsub : ∀ a ∈ pids.dedup,
        ((db.permissions.map Authz.Permission.id).contains a) = true := by
      intro a ha
      rw [contains_eq_decide_mem]
      exact decide_eq_true (hAll a (List.mem_dedup.mp ha))
    rw [List.filter_eq_self.mpr hsub]
  have hcondne : ¬((!pids.dedup.isEmpty &&
      (Authz.permissionGetByIds db pids.dedup).length != pids.dedup.length) = true) := by
    rw [hlenEq]
    simp
  have hTRcont : ∀ rp ∈ Authz.get_by_role db rid,
      (((Authz.get_by_role db rid).map Authz.RolePermission.permission_id).dedup.filter
          (fun pid => !pids.dedup.contains pid)).contains rp.permission_id =
        !pids.contains rp.permission_id := by
    intro rp hrpE
    have hpidX : rp.permission_id ∈
        (Authz.get_by_role db rid).map Authz.RolePermission.permission_id :=
      List.mem_map_of_mem _ hrpE
    rw [contains_eq_decide_mem]
    have hiff : rp.permission_id ∈
        ((Authz.get_by_role db rid).map Authz.RolePermission.permission_id).dedup.filter
          (fun pid => !pids.dedup.contains pid) ↔
        ((!pids.contains rp.permission_id) = true) := by
      rw [List.mem_filter, contains_dedup]
      constructor
      · exact fun h => h.2
      · exact fun h => ⟨List.mem_dedup.mpr hpidX, h⟩
    rw [decide_eq_decide.mpr hiff, Bool.decide_coe]
  have hA2D : (Authz.get_by_role db rid).filter (fun rp =>
      (((Authz.get_by_role db rid).map Authz.RolePermission.permission_id).dedup.filter
          (fun pid => !pids.dedup.contains pid)).contains rp.permission_id) =
      Authz.removedRows db rid pids := by
    unfold Authz.removedRows
    exact List.filter_congr (fun rp hrpE => hTRcont rp hrpE)
  have hDB1 : (if (((Authz.get_by_role db rid).map
        Authz.RolePermission.permission_id).dedup.filter
          (fun pid => !pids.dedup.contains pid)).isEmpty = true then db
      else Authz.rolePermissionDeleteByIds db
        (((Authz.get_by_role db rid).filter (fun rp =>
          (((Authz.get_by_role db rid).map
            Authz.RolePermission.permission_id).dedup.filter
              (fun pid => !pids.dedup.contains pid)).contains rp.permission_id)).map
          Authz.RolePermission.id)) =
      { db with rolePermissions := Authz.keptRows db rid pids } := by
    by_cases hrem : (((Authz.get_by_role db rid).map
        Authz.RolePermission.permission_id).dedup.filter
          (fun pid => !pids.dedup.contains pid)).isEmpty = true
    · rw [if_pos hrem]
      rw [List.isEmpty_iff] at hrem
      have hkeep : Authz.keptRows db rid pids = db.rolePermissions := by
        unfold Authz.keptRows
        apply List.filter_eq_self.mpr
        intro rp hrp
        cases hrole : rp.role_id == rid with
        | false => simp [hrole]
        | true =>
          have hrpE : rp ∈ Authz.get_by_role db rid := List.mem_filter.mpr ⟨hrp, hrole⟩
          have hpidX : rp.permission_id ∈
              (Authz.get_by_role db rid).map Authz.RolePermission.permission_id :=
            List.mem_map_of_mem _ hrpE
          cases hc : pids.contains rp.permission_id with
          | true => simp [hrole, hc]
          | false =>
            exfalso
            have hmemTR : rp.permission_id ∈
                ((Authz.get_by_role db rid).map
                  Authz.RolePermission.permission_id).dedup.filter
                    (fun pid => !pids.dedup.contains pid) := by
              apply List.mem_filter.mpr
              refine ⟨List.mem_dedup.mpr hpidX, ?_⟩
              rw [contains_dedup, hc]
              rfl
            rw [hrem] at hmemTR
            cases hmemTR
      rw [hkeep]
    · rw [if_neg hrem]
      unfold Authz.rolePermissionDeleteByIds
      have hlist : db.rolePermissions.filter (fun rp =>
          !(((Authz.get_by_role db rid).filter (fun rp =>
            (((Authz.get_by_role db rid).map
              Authz.RolePermission.permission_id).dedup.filter
                (fun pid => !pids.dedup.contains pid)).contains rp.permission_id)).map
            Authz.RolePermission.id).contains rp.id) = Authz.keptRows db rid pids := by
        unfold Authz.get_by_role
        rw [List.filter_filter]
        rw [filter_not_selected_ids db.rolePermissions _ hNrp]
        unfold Authz.keptRows
        apply List.filter_congr
        intro rp hrp
        congr 1
        cases hrole : rp.role_id == rid with
        | false => simp [hrole]
        | true =>
          have hrpE : rp ∈ Authz.get_by_role db rid := List.mem_filter.mpr ⟨hrp, hrole⟩
          have hcq := hTRcont rp hrpE
          unfold Authz.get_by_role at hcq
          rw [hcq]
          simp
      rw [hlist]
  have hDB2 : (if (pids.dedup.filter (fun pid =>
        !((Authz.get_by_role db rid).map
          Authz.RolePermission.permission_id).contains pid)).isEmpty = true then
        (if (((Authz.get_by_role db rid).map
          Authz.RolePermission.permission_id).dedup.filter
            (fun pid => !pids.dedup.contains pid)).isEmpty = true then db
         else Authz.rolePermissionDeleteByIds db
          (((Authz.get_by_role db rid).filter (fun rp =>
            (((Authz.get_by_role db rid).map
              Authz.RolePermission.permission_id).dedup.filter
                (fun pid => !pids.dedup.contains pid)).contains rp.permission_id)).map
            Authz.RolePermission.id))
      else Authz.rolePermissionBulkCreate
        (if (((Authz.get_by_role db rid).map
          Authz.RolePermission.permission_id).dedup.filter
            (fun pid => !pids.dedup.contains pid)).isEmpty = true then db
         else Authz.rolePermissionDeleteByIds db
          (((Authz.get_by_role db rid).filter (fun rp =>
            (((Authz.get_by_role db rid).map
              Authz.RolePermission.permission_id).dedup.filter
                (fun pid => !pids.dedup.contains pid)).contains rp.permission_id)).map
            Authz.RolePermission.id)) rid
        (pids.dedup.filter (fun pid =>
          !((Authz.get_by_role db rid).map
            Authz.RolePermission.permission_id).contains pid))) =
      Authz.syncedDb db rid pids := by
    by_cases hadd : (pids.dedup.filter (fun pid =>
        !((Authz.get_by_role db rid).map
          Authz.RolePermission.permission_id).contains pid)).isEmpty = true
    · rw [if_pos hadd, hDB1]
      rw [List.isEmpty_iff] at hadd
      have haddIds : Authz.addedIds db rid pids = [] := hadd
      unfold Authz.syncedDb
      rw [haddIds]
      simp [Authz.mkRolePermissionRows]
    · rw [if_neg hadd, hDB1]
      unfold Authz.rolePermissionBulkCreate Authz.syncedDb
      rfl
  refine ⟨r0, ?_, mem_membership_syncedDb db rid pids, ?_⟩
  · unfold Authz.sync_permissions
    rw [hget]
    dsimp only
    rw [if_neg hcondne]
    rw [hDB2, hA2D]
    rfl
  · have hget2 : Authz.roleServiceGet (Authz.syncedDb db rid pids) rid = .ok r0 := hget
    have hcondne2 : ¬((!pids.dedup.isEmpty &&
        (Authz.permissionGetByIds (Authz.syncedDb db rid pids) pids.dedup).length !=
          pids.dedup.length) = true) := hcondne
    unfold Authz.sync_permissions
    rw [hget2]
    dsimp only
    rw [if_neg hcondne2]
    have hTR2 : ((Authz.get_by_role (Authz.syncedDb db rid pids) rid).map
        Authz.RolePermission.permission_id).dedup.filter
          (fun pid => !pids.dedup.contains pid) = [] := by
      apply List.filter_eq_nil_iff.mpr
      intro q hq
      have hqm : q ∈ Authz.membership (Authz.syncedDb db rid pids) rid :=
        List.mem_dedup.mp hq
      have hqp : q ∈ pids := (mem_membership_syncedDb db rid pids q).mp hqm
      rw [contains_dedup, contains_eq_decide_mem, decide_eq_true hqp]
      simp
    have hTA2 : pids.dedup.filter (fun pid =>
        !((Authz.get_by_role (Authz.syncedDb db rid pids) rid).map
          Authz.RolePermission.permission_id).contains pid) = [] := by
      apply List.filter_eq_nil_iff.mpr
      intro q hq
      have hqp : q ∈ pids := List.mem_dedup.mp hq
      have hqm : q ∈ (Authz.get_by_role (Authz.syncedDb db rid pids) rid).map
          Authz.RolePermission.permission_id :=
        (mem_membership_syncedDb db rid pids q).mpr hqp
      rw [contains_eq_decide_mem, decide_eq_true hqm]
      simp
    rw [hTR2, hTA2]
    simp

/-- Witness: evaluates the C2 theorem on the demo database: role 10 holds
permissions 1, 2, 3 and is synced to 2, 3, 4 (one add, one remove), then
synced again with zero writes. -/
theorem sync_permissions_differential_and_idempotent_witness :
    ∃ r0 : Authz.Role,
      Authz.sync_permissions authzDemo 10 [2, 3, 4] = .ok
        { db := Authz.syncedDb authzDemo 10 [2, 3, 4]
          role := r0
          permissions := Authz.get_permissions_by_role
            (Authz.syncedDb authzDemo 10 [2, 3, 4]) 10
          addedCount := (Authz.addedIds authzDemo 10 [2, 3, 4]).length
          removedCount := (Authz.removedRows authzDemo 10 [2, 3, 4]).length } ∧
      (∀ pid, pid ∈ Authz.membership (Authz.syncedDb authzDemo 10 [2, 3, 4]) 10 ↔
        pid ∈ [2, 3, 4]) ∧
      Authz.sync_permissions (Authz.syncedDb authzDemo 10 [2, 3, 4]) 10 [2, 3, 4] = .ok
        { db := Authz.syncedDb authzDemo 10 [2, 3, 4]
          role := r0
          permissions := Authz.get_permissions_by_role
            (Authz.syncedDb authzDemo 10 [2, 3, 4]) 10
          addedCount := 0
          removedCount := 0 } :=
  sync_permissions_differential_and_idempotent authzDemo 10 [2, 3, 4]
    ⟨⟨10, "admin", true⟩, by decide, rfl⟩ (by decide) (by decide) (by decide)

end ClaimC2

